import Mathlib

/-!
Shallow embedding of the elysia-paseto plugin core (src/index.ts):
secret-key normalization (`prepareSecret`), duration parsing
(`convertExpiration`), plugin construction (`pasetoConfig`), claim
composition for signing (`sign`), and the verification pipeline
(`verify`).  JavaScript strings are modelled as `List Char`, byte
sequences as `List Nat`, thrown exceptions as `Option`/`Except`, and
JavaScript truthiness is modelled explicitly where the source relies
on it.
-/

namespace ElysiaPaseto

/-- Byte-level UTF-8 encoding of a single scalar value, as performed by
`TextEncoder.encode` on each character of the secret string. -/
def utf8EncodeChar (c : Char) : List Nat :=
  let n := c.toNat
  if n < 128 then [n]
  else if n < 2048 then [192 + n / 64, 128 + n % 64]
  else if n < 65536 then [224 + n / 4096, 128 + n / 64 % 64, 128 + n % 64]
  else [240 + n / 262144, 128 + n / 4096 % 64, 128 + n / 64 % 64, 128 + n % 64]

/-- UTF-8 encoding of a whole string (`TextEncoder.encode`). -/
def utf8Encode (s : List Char) : List Nat :=
  (s.map utf8EncodeChar).flatten

/-- The base64url alphabet used by `Buffer.toString("base64url")`. -/
def b64Alphabet : List Char :=
  "ABCDEFGHIJKLMNOPQRSTUVWXYZabcdefghijklmnopqrstuvwxyz0123456789-_".data

/-- The base64url digit for a sextet value. -/
def b64Char (n : Nat) : Char := b64Alphabet.getD n 'A'

/-- Unpadded base64url rendering of a byte sequence, as produced by
Node's `Buffer.from(bytes).toString("base64url")`. -/
def base64urlEncode : List Nat → List Char
  | [] => []
  | [a] => [b64Char (a / 4), b64Char (a % 4 * 16)]
  | [a, b] => [b64Char (a / 4), b64Char (a % 4 * 16 + b / 16), b64Char (b % 16 * 4)]
  | a :: b :: c :: rest =>
      b64Char (a / 4) :: b64Char (a % 4 * 16 + b / 16) ::
        b64Char (b % 16 * 4 + c / 64) :: b64Char (c % 64) :: base64urlEncode rest

/-- Boolean string-prefix test, modelling `String.prototype.startsWith`. -/
def listStarts : List Char → List Char → Bool
  | _, [] => true
  | [], _ :: _ => false
  | c :: cs, p :: ps => c == p && listStarts cs ps

/-- The PASERK local-key marker `"k4.local."` (src/index.ts line 77). -/
def k4Marker : List Char := "k4.local.".data

/-- The PASETO v4 local token marker `"v4.local."` (src/index.ts line 141). -/
def v4Marker : List Char := "v4.local.".data

/-- The pad-or-truncate step of `prepareSecret` (src/index.ts lines 84-94):
pad with zero bytes up to 32 if too short, truncate to 32 if too long,
use as-is when exactly 32 bytes. -/
def deriveKeyBytes (secretBytes : List Nat) : List Nat :=
  if secretBytes.length < 32 then secretBytes ++ List.replicate (32 - secretBytes.length) 0
  else if secretBytes.length > 32 then secretBytes.take 32
  else secretBytes

/-- Key normalization (src/index.ts lines 75-98): a secret already in
PASERK format (literal `k4.local.` start) passes through unchanged;
otherwise the UTF-8 bytes are padded/truncated to 32 bytes and rendered
as `k4.local.` plus the base64url encoding. -/
def prepareSecret (secret : List Char) : List Char :=
  if listStarts secret k4Marker then secret
  else k4Marker ++ base64urlEncode (deriveKeyBytes (utf8Encode secret))

/-- A key in the AEAD primitive's canonical format: the `k4.local.`
marker followed by the base64url encoding of exactly 32 bytes. -/
def isCanonical32 (key : List Char) : Prop :=
  ∃ bs : List Nat, bs.length = 32 ∧ key = k4Marker ++ base64urlEncode bs

/-- Membership of a character in the duration unit class `[smhdw]` of the
pattern at src/index.ts line 61. -/
def isUnitChar (c : Char) : Bool :=
  c == 's' || c == 'm' || c == 'h' || c == 'd' || c == 'w'

/-- The unit table at src/index.ts lines 53-59. -/
def unitName (u : Char) : List Char :=
  if u == 's' then "seconds".data
  else if u == 'm' then "minutes".data
  else if u == 'h' then "hours".data
  else if u == 'd' then "days".data
  else "weeks".data

/-- The match of `/^(\d+)([smhdw])$/` (src/index.ts line 61): a string
matches exactly when its final character is a unit letter and the
nonempty remaining head is all digits; on a match the two capture
groups are returned. -/
def matchDuration (s : List Char) : Option (List Char × Char) :=
  match s.getLast? with
  | none => none
  | some u =>
      if isUnitChar u && !s.dropLast.isEmpty && s.dropLast.all Char.isDigit then
        some (s.dropLast, u)
      else none

/-- `convertExpiration` (src/index.ts lines 44-69).  The input is a
JavaScript number (left) or string (right); `none` models the thrown
`Invalid expiration format` error.  Integer `%` and `/` here agree with
the JavaScript operators on every branch actually taken: the `=== 0`
test agrees with divisibility and the quotient is exact there. -/
def convertExpiration : Int ⊕ List Char → Option (List Char)
  | Sum.inl exp =>
      if exp % 86400 = 0 then some ((toString (exp / 86400)).data ++ " days".data)
      else if exp % 3600 = 0 then some ((toString (exp / 3600)).data ++ " hours".data)
      else if exp % 60 = 0 then some ((toString (exp / 60)).data ++ " minutes".data)
      else some ((toString exp).data ++ " seconds".data)
  | Sum.inr s =>
      match matchDuration s with
      | none => none
      | some (ds, u) => some (ds ++ ' ' :: unitName u)

/-- JavaScript truthiness of the configured `exp` option: the number `0`
and the empty string are falsy, everything else is truthy. -/
def expTruthy : Int ⊕ List Char → Bool
  | Sum.inl n => n != 0
  | Sum.inr s => !s.isEmpty

/-- The state captured by the closure returned from `paseto(options)`:
the normalized secret key, the computed `defaultExpiration` string, and
the truthiness of the raw `exp` option (used again inside `sign`). -/
structure Config where
  secretKey : List Char
  defaultExpiration : List Char
  expSet : Bool
deriving DecidableEq

/-- Plugin construction (src/index.ts lines 100-110): a missing or empty
secret throws (`none`); otherwise the secret is normalized and
`defaultExpiration` is `convertExpiration exp` when `exp` is truthy
(propagating its failure) and the literal `"1 hour"` otherwise. -/
def pasetoConfig (secret : Option (List Char)) (exp : Option (Int ⊕ List Char)) :
    Option Config :=
  match secret with
  | none => none
  | some s =>
      if s.isEmpty then none
      else
        match exp with
        | some e =>
            if expTruthy e then
              match convertExpiration e with
              | some d => some ⟨prepareSecret s, d, true⟩
              | none => none
            else some ⟨prepareSecret s, "1 hour".data, false⟩
        | none => some ⟨prepareSecret s, "1 hour".data, false⟩

/-- A caller-supplied claim set: the `exp` claim (a string when present)
plus the remaining claims, which `sign` copies through untouched. -/
structure Payload where
  exp : Option (List Char)
  others : List (List Char × List Char)
deriving DecidableEq

/-- JavaScript truthiness of `payload.exp`: absent or the empty string
is falsy. -/
def expClaimTruthy (p : Payload) : Bool :=
  match p.exp with
  | some s => !s.isEmpty
  | none => false

/-- The call shape handed to the Token Codec's `encrypt`
(src/index.ts lines 129-133): the composed payload and the three
option flags. -/
structure EncryptCall where
  payload : Payload
  addIat : Bool
  addExp : Bool
  validatePayload : Bool
deriving DecidableEq

/-- `sign` up to the boundary call into `encrypt`
(src/index.ts lines 118-134): copy the payload, overwrite `exp` with
the configured default when the caller's `exp` is falsy and the
configured `exp` option is truthy, and set
`addIat := true`, `addExp := !payload.exp`, `validatePayload := true`. -/
def sign (cfg : Config) (payload : Payload) : EncryptCall :=
  let tokenPayload :=
    if !expClaimTruthy payload && cfg.expSet then
      { payload with exp := some cfg.defaultExpiration }
    else payload
  { payload := tokenPayload
    addIat := true
    addExp := !expClaimTruthy payload
    validatePayload := true }

/-- Outcome of one `verify` call: the returned value (`none` is the
boolean-false sentinel) plus whether the Token Codec's `decrypt` was
invoked. -/
structure VerifyRun where
  result : Option Payload
  decryptInvoked : Bool
deriving DecidableEq

/-- `verify` (src/index.ts lines 139-159), parameterized by the external
`decrypt` operation: a falsy (absent or empty) token and a token not
beginning with `v4.local.` return `false` before any decryption;
otherwise `decrypt` runs inside try/catch and any thrown error is
collapsed to `false`. -/
def verify (dec : List Char → Except (List Char) Payload) (token : Option (List Char)) :
    VerifyRun :=
  match token with
  | none => ⟨none, false⟩
  | some t =>
      if t.isEmpty then ⟨none, false⟩
      else if listStarts t v4Marker then
        match dec t with
        | Except.ok p => ⟨some p, true⟩
        | Except.error _ => ⟨none, true⟩
      else ⟨none, false⟩

/-! Helper lemmas shared by the claim theorems. -/

/-- Length profile of unpadded base64url output, indexed by input length. -/
def encLen : Nat → Nat
  | 0 => 0
  | 1 => 2
  | 2 => 3
  | n + 3 => 4 + encLen n

theorem base64urlEncode_length : ∀ bs : List Nat, (base64urlEncode bs).length = encLen bs.length
  | [] => rfl
  | [_] => rfl
  | [_, _] => rfl
  | _ :: _ :: _ :: rest => by
      simp only [base64urlEncode, List.length_cons, encLen, base64urlEncode_length rest]
      omega

theorem deriveKeyBytes_length (bs : List Nat) : (deriveKeyBytes bs).length = 32 := by
  unfold deriveKeyBytes
  split_ifs with h1 h2
  · simp only [List.length_append, List.length_replicate]
    omega
  · simp only [List.length_take]
    omega
  · omega

theorem isEmpty_false_of_ne_nil {α : Type} {l : List α} (h : l ≠ []) : l.isEmpty = false := by
  cases l with
  | nil => exact absurd rfl h
  | cons a t => rfl

theorem matchDuration_eq_some (s ds : List Char) (u : Char) :
    matchDuration s = some (ds, u) ↔
      s = ds ++ [u] ∧ ds ≠ [] ∧ ds.all Char.isDigit = true ∧ isUnitChar u = true := by
  rcases s.eq_nil_or_concat' with rfl | ⟨l, a, rfl⟩
  · simp only [matchDuration, List.getLast?_nil]
    constructor
    · intro h
      exact absurd h (by simp)
    · rintro ⟨h, -⟩
      have := congrArg List.length h
      simp at this
  · simp only [matchDuration, List.getLast?_concat, List.dropLast_concat]
    constructor
    · intro h
      split_ifs at h with hc
      · rw [Option.some.injEq, Prod.mk.injEq] at h
        obtain ⟨rfl, rfl⟩ := h
        simp only [Bool.and_eq_true, Bool.not_eq_true'] at hc
        refine ⟨rfl, ?_, hc.2, hc.1.1⟩
        intro hnil
        rw [hnil] at hc
        simp at hc
    · rintro ⟨heq, hne, hdig, hu⟩
      have hlen : l.length = ds.length := by
        have := congrArg List.length heq
        simp only [List.length_append, List.length_cons, List.length_nil] at this
        omega
      obtain ⟨rfl, htail⟩ := List.append_inj heq hlen
      have : a = u := by simpa using htail
      subst this
      rw [if_pos]
      simp only [hu, hdig, isEmpty_false_of_ne_nil hne, Bool.not_false, Bool.and_self]

theorem convertExpiration_inr_none (s : List Char)
    (hno : ∀ ds u, s = ds ++ [u] → ¬(ds ≠ [] ∧ ds.all Char.isDigit = true ∧ isUnitChar u = true)) :
    convertExpiration (Sum.inr s) = none := by
  cases hm : matchDuration s with
  | none => simp [convertExpiration, hm]
  | some du =>
      obtain ⟨ds, u⟩ := du
      have hc := (matchDuration_eq_some s ds u).1 hm
      exact absurd ⟨hc.2.1, hc.2.2.1, hc.2.2.2⟩ (hno ds u hc.1)

theorem convertExpiration_inl_isSome (n : Int) : ∃ d, convertExpiration (Sum.inl n) = some d := by
  simp only [convertExpiration]
  split_ifs <;> exact ⟨_, rfl⟩

/-! Claim C2 — negative numeric `exp` at construction. -/

/-- C2 counterexample: constructing the plugin with `exp = -5` does not
throw; construction succeeds and the configured default expiration is
the string `"-5 seconds"`.  This refutes the claim that every negative
integer `exp` fails at construction with `InvalidDurationFormat`. -/
theorem c2_counterexample :
    (pasetoConfig (some ['k']) (some (Sum.inl (-5)))).map (fun c => c.defaultExpiration) =
      some "-5 seconds".data
    ∧ pasetoConfig (some ['k']) (some (Sum.inl (-5))) ≠ none := by
  constructor <;> decide

/-- C2 (amended): for every nonempty secret and every negative integer
`n`, construction with `exp = n` succeeds: the numeric branch of the
duration parser never rejects, the produced configuration records the
converted duration, and the exp-configured flag is set. -/
theorem c2_spec (s : List Char) (n : Int) (hs : s.isEmpty = false) (hn : n < 0) :
    ∃ c, pasetoConfig (some s) (some (Sum.inl n)) = some c
      ∧ convertExpiration (Sum.inl n) = some c.defaultExpiration
      ∧ c.expSet = true := by
  obtain ⟨d, hd⟩ := convertExpiration_inl_isSome n
  have hne : (n != 0) = true := by
    simp only [bne_iff_ne, ne_eq]
    omega
  refine ⟨⟨prepareSecret s, d, true⟩, ?_, by simpa using hd, rfl⟩
  simp only [pasetoConfig, hs, Bool.false_eq_true, if_false, expTruthy, hne, if_true, hd]

/-- C2 witness: the amended theorem applied at secret `"k"` and `exp = -5`. -/
theorem c2_witness :
    (['k'].isEmpty = false ∧ (-5 : Int) < 0)
    ∧ ∃ c, pasetoConfig (some ['k']) (some (Sum.inl (-5))) = some c
        ∧ convertExpiration (Sum.inl (-5)) = some c.defaultExpiration
        ∧ c.expSet = true :=
  ⟨⟨by decide, by decide⟩, c2_spec ['k'] (-5) (by decide) (by decide)⟩

/-! Claim C8 — numeric duration parsing picks the largest exact unit. -/

/-- C8: for every non-negative integer seconds input `n`, the numeric
duration parser tests exact divisibility in the fixed order days
(86400), hours (3600), minutes (60), and falls back to raw seconds,
with exact division; in particular `604800` parses to `"7 days"`. -/
theorem c8_spec (n : Nat) :
    ((86400 : Int) ∣ (n : Int) →
      convertExpiration (Sum.inl (n : Int)) =
        some ((toString ((n : Int) / 86400)).data ++ " days".data))
    ∧ (¬(86400 : Int) ∣ (n : Int) → (3600 : Int) ∣ (n : Int) →
      convertExpiration (Sum.inl (n : Int)) =
        some ((toString ((n : Int) / 3600)).data ++ " hours".data))
    ∧ (¬(86400 : Int) ∣ (n : Int) → ¬(3600 : Int) ∣ (n : Int) → (60 : Int) ∣ (n : Int) →
      convertExpiration (Sum.inl (n : Int)) =
        some ((toString ((n : Int) / 60)).data ++ " minutes".data))
    ∧ (¬(86400 : Int) ∣ (n : Int) → ¬(3600 : Int) ∣ (n : Int) → ¬(60 : Int) ∣ (n : Int) →
      convertExpiration (Sum.inl (n : Int)) =
        some ((toString (n : Int)).data ++ " seconds".data))
    ∧ convertExpiration (Sum.inl ((604800 : Nat) : Int)) = some "7 days".data := by
  refine ⟨?_, ?_, ?_, ?_, by decide⟩
  · intro h1
    simp only [convertExpiration, Int.emod_eq_zero_of_dvd h1, if_true]
  · intro h1 h2
    have h1m : ¬((n : Int) % 86400 = 0) := fun hh => h1 (Int.dvd_of_emod_eq_zero hh)
    simp only [convertExpiration, h1m, if_false, Int.emod_eq_zero_of_dvd h2, if_true]
  · intro h1 h2 h3
    have h1m : ¬((n : Int) % 86400 = 0) := fun hh => h1 (Int.dvd_of_emod_eq_zero hh)
    have h2m : ¬((n : Int) % 3600 = 0) := fun hh => h2 (Int.dvd_of_emod_eq_zero hh)
    simp only [convertExpiration, h1m, h2m, if_false, Int.emod_eq_zero_of_dvd h3, if_true]
  · intro h1 h2 h3
    have h1m : ¬((n : Int) % 86400 = 0) := fun hh => h1 (Int.dvd_of_emod_eq_zero hh)
    have h2m : ¬((n : Int) % 3600 = 0) := fun hh => h2 (Int.dvd_of_emod_eq_zero hh)
    have h3m : ¬((n : Int) % 60 = 0) := fun hh => h3 (Int.dvd_of_emod_eq_zero hh)
    simp only [convertExpiration, h1m, h2m, h3m, if_false]

/-- C8 witness: the days branch applied at the concrete input `604800`. -/
theorem c8_witness :
    (86400 : Int) ∣ ((604800 : Nat) : Int)
    ∧ convertExpiration (Sum.inl ((604800 : Nat) : Int)) =
        some ((toString (((604800 : Nat) : Int) / 86400)).data ++ " days".data) :=
  ⟨by decide, (c8_spec 604800).1 (by decide)⟩

/-! Claim C9 — string duration parsing and the pattern gate. -/

/-- C9 counterexample: the empty string does not match the pattern
(`convertExpiration` rejects it), yet construction with `exp = ""` does
not fail: the empty string is falsy in JavaScript, so the parser is
skipped and construction succeeds with the `"1 hour"` fallback.  This
refutes the clause that every non-matching string causes a
construction-time failure. -/
theorem c9_counterexample :
    convertExpiration (Sum.inr ([] : List Char)) = none
    ∧ pasetoConfig (some ['k']) (some (Sum.inr [])) =
        some ⟨prepareSecret ['k'], "1 hour".data, false⟩ := by
  constructor <;> decide

/-- C9 (amended): the string duration parser succeeds exactly on strings
of the form digits followed by one unit letter of `smhdw`, mapping the
trailing letter through the unit table with the digit group as
magnitude; every other nonempty string makes construction fail, while
the empty string (falsy) skips the parser entirely. -/
theorem c9_spec (s : List Char) :
    (∀ ds u, s = ds ++ [u] → ds ≠ [] → ds.all Char.isDigit = true → isUnitChar u = true →
        convertExpiration (Sum.inr s) = some (ds ++ ' ' :: unitName u))
    ∧ ((∀ ds u, s = ds ++ [u] → ¬(ds ≠ [] ∧ ds.all Char.isDigit = true ∧ isUnitChar u = true)) →
        convertExpiration (Sum.inr s) = none)
    ∧ (∀ sec : List Char, sec.isEmpty = false → s ≠ [] →
        (∀ ds u, s = ds ++ [u] → ¬(ds ≠ [] ∧ ds.all Char.isDigit = true ∧ isUnitChar u = true)) →
        pasetoConfig (some sec) (some (Sum.inr s)) = none) := by
  refine ⟨?_, ?_, ?_⟩
  · intro ds u heq hne hdig hu
    have hm : matchDuration s = some (ds, u) :=
      (matchDuration_eq_some s ds u).2 ⟨heq, hne, hdig, hu⟩
    simp only [convertExpiration, hm]
  · intro hno
    exact convertExpiration_inr_none s hno
  · intro sec hsec hne hno
    simp only [pasetoConfig, hsec, Bool.false_eq_true, if_false, expTruthy,
      isEmpty_false_of_ne_nil hne, Bool.not_false, if_true,
      convertExpiration_inr_none s hno]

/-- C9 witness: the success direction applied at the concrete string
`"7d"`, which parses to `"7 days"`. -/
theorem c9_witness :
    ("7d".data = "7".data ++ ['d'] ∧ "7".data ≠ [] ∧ "7".data.all Char.isDigit = true
      ∧ isUnitChar 'd' = true)
    ∧ convertExpiration (Sum.inr "7d".data) = some ("7".data ++ ' ' :: unitName 'd') :=
  ⟨⟨by decide, by decide, by decide, by decide⟩,
    (c9_spec "7d".data).1 "7".data 'd' (by decide) (by decide) (by decide) (by decide)⟩

/-! Claim C1 — signing with no configured `exp` and no caller `exp`. -/

/-- C1 counterexample: with the plugin configured without an `exp`
option and a caller claim set carrying no `exp` claim, `sign` does not
set `addExp` to false: the `encrypt` call is made with `addExp = true`
(because `addExp := !payload.exp`), even though no default expiration
value is placed into the composed claims. -/
theorem c1_counterexample :
    (pasetoConfig (some ['k']) none).map
        (fun c => ((sign c ⟨none, []⟩).addExp, (sign c ⟨none, []⟩).payload.exp)) =
      some (true, none)
    ∧ (pasetoConfig (some ['k']) none).map (fun c => (sign c ⟨none, []⟩).addExp) ≠
        some false := by
  constructor <;> decide

/-- C1 (amended): for every plugin constructed without an `exp` option
and every caller claim set with no `exp` claim, `sign` places no
default expiration into the composed claims (the composed `exp` stays
absent), but it instructs the Token Codec with `addExp = true`, so the
codec — not the plugin — is asked to add an expiry. -/
theorem c1_spec (s : List Char) (cfg : Config)
    (h : pasetoConfig (some s) none = some cfg) (p : Payload) (hp : p.exp = none) :
    (sign cfg p).payload.exp = none ∧ (sign cfg p).addExp = true := by
  have hset : cfg.expSet = false := by
    simp only [pasetoConfig] at h
    by_cases hs : s.isEmpty
    · simp [hs] at h
    · simp only [hs, Bool.false_eq_true, if_false, Option.some.injEq] at h
      rw [← h]
  have ht : expClaimTruthy p = false := by
    simp [expClaimTruthy, hp]
  constructor
  · simp [sign, ht, hset, hp]
  · simp [sign, ht]

/-- C1 witness: the amended theorem at the concrete secret `"k"` and the
empty claim set. -/
theorem c1_witness :
    pasetoConfig (some ['k']) none = some ⟨prepareSecret ['k'], "1 hour".data, false⟩
    ∧ (sign ⟨prepareSecret ['k'], "1 hour".data, false⟩ ⟨none, []⟩).payload.exp = none
    ∧ (sign ⟨prepareSecret ['k'], "1 hour".data, false⟩ ⟨none, []⟩).addExp = true :=
  ⟨by decide,
    c1_spec ['k'] ⟨prepareSecret ['k'], "1 hour".data, false⟩ (by decide) ⟨none, []⟩ rfl⟩

/-! Claim C6 — caller-supplied expiry overrides the configured default. -/

/-- C6 counterexample: a caller claim set that contains an `exp` claim
whose value is the empty string is treated as having no expiry (the
empty string is falsy in JavaScript): under a configured default
duration `sign` overwrites the claim with the default `"1 minutes"` and
sets `addExp = true`, refuting the claim for the value `T = ""`. -/
theorem c6_counterexample :
    (pasetoConfig (some ['k']) (some (Sum.inl 60))).map
        (fun c => ((sign c ⟨some [], []⟩).payload.exp, (sign c ⟨some [], []⟩).addExp)) =
      some (some "1 minutes".data, true)
    ∧ (pasetoConfig (some ['k']) (some (Sum.inl 60))).map
        (fun c => ((sign c ⟨some [], []⟩).payload.exp, (sign c ⟨some [], []⟩).addExp)) ≠
        some (some [], false) := by
  constructor <;> decide

/-- C6 (amended): for every caller claim set whose `exp` claim holds a
truthy (nonempty) value `T`, `sign` leaves the claim untouched and does
not request auto-injection of an expiry (`addExp = false`), under any
configuration — including one with a configured default duration. -/
theorem c6_spec (cfg : Config) (p : Payload) (T : List Char)
    (hT : p.exp = some T) (hne : T ≠ []) :
    (sign cfg p).payload.exp = some T ∧ (sign cfg p).addExp = false := by
  have ht : expClaimTruthy p = true := by
    simp [expClaimTruthy, hT, isEmpty_false_of_ne_nil hne]
  constructor
  · simp [sign, ht, hT]
  · simp [sign, ht]

/-- C6 witness: the theorem at a configuration with a default duration
and the concrete caller expiry `"T"`. -/
theorem c6_witness :
    (Payload.mk (some ['T']) []).exp = some ['T'] ∧ (['T'] ≠ ([] : List Char))
    ∧ (sign ⟨['k'], "1 hour".data, true⟩ ⟨some ['T'], []⟩).payload.exp = some ['T']
    ∧ (sign ⟨['k'], "1 hour".data, true⟩ ⟨some ['T'], []⟩).addExp = false :=
  ⟨rfl, by decide,
    c6_spec ⟨['k'], "1 hour".data, true⟩ ⟨some ['T'], []⟩ ['T'] rfl (by decide)⟩

/-! Claim C4 — the format gate runs before any decryption. -/

/-- C4: for every decrypt operation and every token that is absent, is
the empty string, or does not begin with `v4.local.`, `verify` returns
the false sentinel and never invokes decrypt. -/
theorem c4_spec (dec : List Char → Except (List Char) Payload) (token : Option (List Char))
    (h : token = none ∨ token = some []
      ∨ ∀ t, token = some t → listStarts t v4Marker = false) :
    (verify dec token).result = none ∧ (verify dec token).decryptInvoked = false := by
  rcases h with rfl | rfl | h
  · exact ⟨rfl, rfl⟩
  · exact ⟨rfl, rfl⟩
  · cases token with
    | none => exact ⟨rfl, rfl⟩
    | some t =>
        have ht := h t rfl
        by_cases he : t.isEmpty
        · simp [verify, he]
        · simp [verify, he, ht]

/-- C4 witness: a wrong-version token (`v3.local.x`) is rejected with no
decrypt call, for a decrypt operation that would fail if invoked. -/
theorem c4_witness :
    (verify (fun _ => Except.error ['e']) (some "v3.local.x".data)).result = none
    ∧ (verify (fun _ => Except.error ['e']) (some "v3.local.x".data)).decryptInvoked = false :=
  c4_spec _ _ (Or.inr (Or.inr (fun t ht => by cases ht; decide)))

/-! Claim C5 — verify never raises and collapses all rejections. -/

/-- C5: for every decrypt operation and every (possibly absent) token,
`verify` resolves to either the recovered claim set or the single false
sentinel: it returns the decrypted payload exactly when the token is
present, nonempty, carries the `v4.local.` marker and decrypt succeeds,
and in every other case — missing token, empty token, wrong marker, or
decrypt throwing any error whatsoever — it returns the one
indistinguishable `none` result, never propagating the failure. -/
theorem c5_spec (dec : List Char → Except (List Char) Payload) (token : Option (List Char)) :
    ((verify dec token).result = none
      ∧ (token = none ∨ token = some []
        ∨ (∃ t, token = some t ∧ listStarts t v4Marker = false)
        ∨ (∃ t e, token = some t ∧ dec t = Except.error e)))
    ∨ (∃ t p, token = some t ∧ t.isEmpty = false ∧ listStarts t v4Marker = true
        ∧ dec t = Except.ok p ∧ (verify dec token).result = some p) := by
  cases token with
  | none => exact Or.inl ⟨rfl, Or.inl rfl⟩
  | some t =>
      by_cases he : t.isEmpty
      · have hnil : t = [] := by
          simpa [List.isEmpty_iff] using he
        subst hnil
        exact Or.inl ⟨rfl, Or.inr (Or.inl rfl)⟩
      · by_cases hpre : listStarts t v4Marker
        · cases hdec : dec t with
          | ok p =>
              exact Or.inr ⟨t, p, rfl, by simpa using he, hpre, hdec,
                by simp [verify, he, hpre, hdec]⟩
          | error e =>
              exact Or.inl ⟨by simp [verify, he, hpre, hdec],
                Or.inr (Or.inr (Or.inr ⟨t, e, rfl, hdec⟩))⟩
        · exact Or.inl ⟨by simp [verify, he, hpre],
            Or.inr (Or.inr (Or.inl ⟨t, rfl, by simpa using hpre⟩))⟩

/-- C5 witness: with a decrypt operation that always throws, a
well-formed-looking `v4.local.` token still resolves to the false
sentinel rather than a propagating failure. -/
theorem c5_witness :
    (verify (fun _ => Except.error ['x']) (some "v4.local.a".data)).result = none := by
  rcases c5_spec (fun _ => Except.error ['x']) (some "v4.local.a".data) with
    ⟨h1, -⟩ | ⟨t, p, -, -, -, hdec, -⟩
  · exact h1
  · exact absurd hdec (by simp)

/-! Claim C3 — the 32-byte canonical-key invariant. -/

/-- C3 counterexample: the secret `"k4.local.abc"` is accepted at
construction and used as the key unchanged, yet it is not the canonical
encoding of 32 bytes — its base64url body decodes from 3 characters,
not the 43 characters that 32 bytes produce.  The invariant fails on
the passthrough branch. -/
theorem c3_counterexample :
    (pasetoConfig (some "k4.local.abc".data) none).map (fun c => c.secretKey) =
      some "k4.local.abc".data
    ∧ ¬ isCanonical32 "k4.local.abc".data := by
  refine ⟨by decide, ?_⟩
  rintro ⟨bs, h32, heq⟩
  have hl := congrArg List.length heq
  rw [List.length_append, base64urlEncode_length, h32] at hl
  have h1 : ("k4.local.abc".data).length = 12 := by decide
  have h2 : k4Marker.length = 9 := by decide
  have h3 : encLen 32 = 43 := by decide
  omega

/-- C3 (amended): every accepted secret that does not begin with
`k4.local.` is normalized to a key in the canonical format encoding
exactly 32 bytes; a secret that does begin with `k4.local.` is passed
through entirely unchanged, with no length or encoding validation. -/
theorem c3_spec (s : List Char) (hacc : s.isEmpty = false) :
    (listStarts s k4Marker = false → isCanonical32 (prepareSecret s))
    ∧ (listStarts s k4Marker = true → prepareSecret s = s) := by
  constructor
  · intro h
    have hpre : prepareSecret s = k4Marker ++ base64urlEncode (deriveKeyBytes (utf8Encode s)) := by
      unfold prepareSecret
      rw [if_neg (by simp [h])]
    exact ⟨deriveKeyBytes (utf8Encode s), deriveKeyBytes_length _, hpre⟩
  · intro h
    unfold prepareSecret
    rw [if_pos h]

/-- C3 witness: the derivation branch at the concrete secret `"pw"`. -/
theorem c3_witness :
    ("pw".data.isEmpty = false ∧ listStarts "pw".data k4Marker = false)
    ∧ isCanonical32 (prepareSecret "pw".data) :=
  ⟨⟨by decide, by decide⟩, (c3_spec "pw".data (by decide)).1 (by decide)⟩

/-! Claim C7 — pad/truncate derivation for non-passthrough secrets. -/

/-- C7: for every secret not beginning with `k4.local.`, normalization
encodes the secret as UTF-8 bytes and pads with zero bytes to 32 when
shorter, truncates to the first 32 bytes when longer, and uses the
bytes as-is when exactly 32; the derived byte sequence always has
length 32, and normalization is deterministic. -/
theorem c7_spec (s : List Char) (h : listStarts s k4Marker = false) :
    prepareSecret s = k4Marker ++ base64urlEncode (deriveKeyBytes (utf8Encode s))
    ∧ ((utf8Encode s).length < 32 →
        deriveKeyBytes (utf8Encode s) =
          utf8Encode s ++ List.replicate (32 - (utf8Encode s).length) 0)
    ∧ ((utf8Encode s).length > 32 →
        deriveKeyBytes (utf8Encode s) = (utf8Encode s).take 32)
    ∧ ((utf8Encode s).length = 32 → deriveKeyBytes (utf8Encode s) = utf8Encode s)
    ∧ (deriveKeyBytes (utf8Encode s)).length = 32
    ∧ (∀ t : List Char, t = s → prepareSecret t = prepareSecret s) := by
  refine ⟨?_, ?_, ?_, ?_, deriveKeyBytes_length _, fun t ht => by rw [ht]⟩
  · unfold prepareSecret
    rw [if_neg (by simp [h])]
  · intro hlt
    unfold deriveKeyBytes
    rw [if_pos hlt]
  · intro hgt
    unfold deriveKeyBytes
    rw [if_neg (by omega), if_pos hgt]
  · intro heq
    unfold deriveKeyBytes
    rw [if_neg (by omega), if_neg (by omega)]

/-- C7 witness: the short-secret branch at the concrete secret `"pw2"`,
whose 3 UTF-8 bytes are zero-padded to 32. -/
theorem c7_witness :
    listStarts "pw2".data k4Marker = false
    ∧ prepareSecret "pw2".data =
        k4Marker ++ base64urlEncode (deriveKeyBytes (utf8Encode "pw2".data)) :=
  ⟨by decide, (c7_spec "pw2".data (by decide)).1⟩

/-! Claim C10 — key normalization is not injective. -/

/-- C10: key normalization collides: any two non-passthrough secrets
whose UTF-8 encodings agree after the pad-or-truncate step receive
byte-identical keys, and concretely a 33-character secret and its
32-character truncation (32 `a`s with and without a trailing `b`) are
distinct secrets normalized to the same key — so tokens signed under
one are accepted under the other, which uses the identical key. -/
theorem c10_spec :
    (∀ s t : List Char, listStarts s k4Marker = false → listStarts t k4Marker = false →
        deriveKeyBytes (utf8Encode s) = deriveKeyBytes (utf8Encode t) →
        prepareSecret s = prepareSecret t)
    ∧ List.replicate 32 'a' ++ ['b'] ≠ List.replicate 32 'a'
    ∧ listStarts (List.replicate 32 'a' ++ ['b']) k4Marker = false
    ∧ listStarts (List.replicate 32 'a') k4Marker = false
    ∧ prepareSecret (List.replicate 32 'a' ++ ['b']) = prepareSecret (List.replicate 32 'a') := by
  refine ⟨?_, by decide, by decide, by decide, by decide⟩
  intro s t hs ht hk
  unfold prepareSecret
  rw [if_neg (by simp [hs]), if_neg (by simp [ht]), hk]

/-- C10 witness: the collision law applied at the concrete pair of
distinct secrets. -/
theorem c10_witness :
    prepareSecret (List.replicate 32 'a' ++ ['b']) = prepareSecret (List.replicate 32 'a') :=
  c10_spec.1 _ _ (by decide) (by decide) (by decide)

end ElysiaPaseto
